import Mathlib

/-!
# logplugin: a request/response logging middleware

Shallow embedding of `logplugin.go`.

* The process-wide effects (the lines handed to `log.Printf` and the calls that reach the
  real `http.ResponseWriter`) are recorded, in order, in one trace `World`.
* The real response sink is an arbitrary deterministic `http.ResponseWriter`: what each of
  its three methods answers (or whether it panics) is a function of the calls it has
  received so far.
* A downstream `http.Handler` is a function from the request to a program `Prog` that
  issues `Header`, `Write` and `WriteHeader` calls on the writer it is given, may inspect
  every answer, and ends by returning or by panicking.
* `time.Now` and `time.Since` are readings of an external clock.
* Pointers (`*Config`, `*http.Request`, `req.URL`, the handler) are non-nil, and the
  downstream handler does not modify the request it is handed.
* A log entry is the format string of its `log.Printf` call with the arguments; how the
  logger renders and transports it is outside the program.
-/

namespace logplugin

/-! ## Collaborators from the standard library -/

/-- Value carried by a Go panic. -/
abbrev PanicValue := String

/-- Result of a call that either returns a value or panics. -/
inductive Res (α : Type) where
  | ok (a : α)
  | panicked (v : PanicValue)
  deriving DecidableEq, Repr

/-- `http.Header`: the entries of the map, in the order a `range` loop visits them. -/
abbrev http.Header := List (String × List String)

/-- `Header.Get`: first value stored under the key, or the empty string. -/
def http.Header.Get (h : http.Header) (key : String) : String :=
  match h.lookup key with
  | some (v :: _) => v
  | _ => ""

/-- `url.URL`, reduced to the field the program reads. -/
structure url.URL where
  Path : String
  deriving DecidableEq, Repr

/-- `http.Request`, reduced to the fields the program reads. -/
structure http.Request where
  Method : String
  URL : url.URL
  Proto : String
  Host : String
  RemoteAddr : String
  Header : http.Header
  deriving DecidableEq, Repr

/-- `Request.UserAgent`. -/
def http.Request.UserAgent (req : http.Request) : String :=
  http.Header.Get req.Header "User-Agent"

/-- `http.StatusOK`. -/
def http.StatusOK : Int := 200

/-- A call on an `http.ResponseWriter`. -/
inductive Op where
  | Header
  | Write (b : List Nat)
  | WriteHeader (code : Int)
  deriving DecidableEq, Repr

/-- An argument of a `log.Printf` call. -/
inductive log.Arg where
  | str (s : String)
  | int (n : Int)
  | duration (ns : Int)
  deriving DecidableEq, Repr

/-- One `log.Printf` call: the format string and its arguments. -/
structure log.Entry where
  format : String
  args : List log.Arg
  deriving DecidableEq, Repr

/-- An observable effect: a log entry, or a call received by the real response sink. -/
inductive Event where
  | log (e : log.Entry)
  | sink (op : Op)
  deriving DecidableEq, Repr

/-- The trace of effects so far, oldest first. -/
abbrev World := List Event

/-- `log.Printf`. -/
def log.Printf (format : String) (args : List log.Arg) (w : World) : World :=
  w ++ [Event.log ⟨format, args⟩]

/-- The calls the real sink has received. -/
def sinkOps (w : World) : List Op :=
  w.filterMap fun e => match e with
    | Event.sink op => some op
    | Event.log _ => none

/-- The log entries emitted. -/
def logEntries (w : World) : List log.Entry :=
  w.filterMap fun e => match e with
    | Event.log e => some e
    | Event.sink _ => none

/-- The real response sink: each method answers from the calls received so far. -/
structure Sink where
  onHeader : List Op → Res http.Header
  onWrite : List Op → List Nat → Res (Int × Option String)
  onWriteHeader : List Op → Int → Res Unit

/-- Method table of the interface `http.ResponseWriter` for receivers of type `σ`. -/
structure ResponseWriterMethods (σ : Type) where
  Header : σ → World → Res http.Header × σ × World
  Write : σ → List Nat → World → Res (Int × Option String) × σ × World
  WriteHeader : σ → Int → World → Res Unit × σ × World

/-- The real sink as an `http.ResponseWriter`: it records the call and answers. -/
def Sink.methods : ResponseWriterMethods Sink where
  Header s w := (s.onHeader (sinkOps w), s, w ++ [Event.sink Op.Header])
  Write s b w := (s.onWrite (sinkOps w) b, s, w ++ [Event.sink (Op.Write b)])
  WriteHeader s code w :=
    (s.onWriteHeader (sinkOps w) code, s, w ++ [Event.sink (Op.WriteHeader code)])

/-- Body of a handler: calls on the writer it is given, each answer inspected, then a
normal return or a panic. -/
inductive Prog where
  | ret : Prog
  | fail (v : PanicValue) : Prog
  | Header (k : Res http.Header → Prog) : Prog
  | Write (b : List Nat) (k : Res (Int × Option String) → Prog) : Prog
  | WriteHeader (code : Int) (k : Res Unit → Prog) : Prog

/-- Run a handler body against a writer. -/
def Prog.run {σ : Type} (m : ResponseWriterMethods σ) : Prog → σ → World → Res Unit × σ × World
  | Prog.ret, s, w => (Res.ok (), s, w)
  | Prog.fail v, s, w => (Res.panicked v, s, w)
  | Prog.Header k, s, w =>
    let r := m.Header s w
    (k r.1).run m r.2.1 r.2.2
  | Prog.Write b k, s, w =>
    let r := m.Write s b w
    (k r.1).run m r.2.1 r.2.2
  | Prog.WriteHeader code k, s, w =>
    let r := m.WriteHeader s code w
    (k r.1).run m r.2.1 r.2.2

/-- The calls a handler body makes, in order, on the writer it is given. -/
def Prog.calls {σ : Type} (m : ResponseWriterMethods σ) : Prog → σ → World → List Op
  | Prog.ret, _, _ => []
  | Prog.fail _, _, _ => []
  | Prog.Header k, s, w =>
    let r := m.Header s w
    Op.Header :: (k r.1).calls m r.2.1 r.2.2
  | Prog.Write b k, s, w =>
    let r := m.Write s b w
    Op.Write b :: (k r.1).calls m r.2.1 r.2.2
  | Prog.WriteHeader code k, s, w =>
    let r := m.WriteHeader s code w
    Op.WriteHeader code :: (k r.1).calls m r.2.1 r.2.2

/-- `http.Handler`. -/
abbrev http.Handler := http.Request → Prog

/-- The external clock: the reading of `time.Now` and what `time.Since` answers. -/
structure Clock where
  Now : Int
  Since : Int → Int

/-! ## The plugin -/

/-- `Config`. -/
structure Config where
  LogRequest : Bool
  LogResponse : Bool
  LogHeaders : Bool
  deriving DecidableEq, Repr

/-- `CreateConfig`. -/
def CreateConfig : Config :=
  { LogRequest := true, LogResponse := true, LogHeaders := false }

/-- `LogPlugin`. -/
structure LogPlugin where
  next : http.Handler
  name : String
  config : Config

/-- `New`: the handler and the error (none). -/
def New (_ctx : Unit) (next : http.Handler) (config : Config) (name : String) :
    LogPlugin × Option String :=
  ({ next := next, name := name, config := config }, none)

/-- `responseWriter`: the embedded writer and the captured status code. -/
structure responseWriter where
  ResponseWriter : Sink
  statusCode : Int

/-- `responseWriter.WriteHeader`: capture, then forward. -/
def responseWriter.WriteHeader (rw : responseWriter) (code : Int) (w : World) :
    Res Unit × responseWriter × World :=
  let rw1 : responseWriter := { rw with statusCode := code }
  let r := Sink.methods.WriteHeader rw1.ResponseWriter code w
  (r.1, { rw1 with ResponseWriter := r.2.1 }, r.2.2)

/-- Method set of `responseWriter`: `Header` and `Write` are promoted from the embedded
writer, `WriteHeader` is overridden. -/
def responseWriter.methods : ResponseWriterMethods responseWriter where
  Header rw w :=
    let r := Sink.methods.Header rw.ResponseWriter w
    (r.1, { rw with ResponseWriter := r.2.1 }, r.2.2)
  Write rw b w :=
    let r := Sink.methods.Write rw.ResponseWriter b w
    (r.1, { rw with ResponseWriter := r.2.1 }, r.2.2)
  WriteHeader rw code w := rw.WriteHeader code w

/-- Inner loop of `logRequest`: one line per value of a header. -/
def logHeaderValues (name : String) : List String → World → World
  | [], w => w
  | value :: rest, w =>
    logHeaderValues name rest (log.Printf "  %s: %s" [log.Arg.str name, log.Arg.str value] w)

/-- Outer loop of `logRequest`: over the entries of the header map. -/
def logHeaderEntries : http.Header → World → World
  | [], w => w
  | (name, values) :: rest, w => logHeaderEntries rest (logHeaderValues name values w)

/-- `LogPlugin.logRequest`. -/
def LogPlugin.logRequest (p : LogPlugin) (req : http.Request) (w : World) : World :=
  let w := log.Printf "[REQUEST] %s %s %s"
    [log.Arg.str req.Method, log.Arg.str req.URL.Path, log.Arg.str req.Proto] w
  let w := log.Printf "[REQUEST] Host: %s" [log.Arg.str req.Host] w
  let w := log.Printf "[REQUEST] RemoteAddr: %s" [log.Arg.str req.RemoteAddr] w
  let w := log.Printf "[REQUEST] User-Agent: %s" [log.Arg.str req.UserAgent] w
  if p.config.LogHeaders then
    let w := log.Printf "[REQUEST] Headers:" [] w
    logHeaderEntries req.Header w
  else w

/-- `LogPlugin.logResponse`. -/
def LogPlugin.logResponse (_p : LogPlugin) (req : http.Request) (statusCode : Int)
    (duration : Int) (w : World) : World :=
  log.Printf "[RESPONSE] %s %s - Status: %d - Duration: %v"
    [log.Arg.str req.Method, log.Arg.str req.URL.Path, log.Arg.int statusCode,
      log.Arg.duration duration] w

/-- `LogPlugin.ServeHTTP`. A panic of the downstream handler unwinds through it. -/
def LogPlugin.ServeHTTP (p : LogPlugin) (clock : Clock) (rw : Sink) (req : http.Request)
    (w : World) : Res Unit × World :=
  let start := clock.Now
  let w := if p.config.LogRequest then p.logRequest req w else w
  let customRW : responseWriter := { ResponseWriter := rw, statusCode := http.StatusOK }
  let r := (p.next req).run responseWriter.methods customRW w
  match r.1 with
  | Res.panicked v => (Res.panicked v, r.2.2)
  | Res.ok _ =>
    if p.config.LogResponse then
      let duration := clock.Since start
      (Res.ok (), p.logResponse req r.2.1.statusCode duration r.2.2)
    else (Res.ok (), r.2.2)

/-! ## Vocabulary of the properties -/

/-- The part of the trace `w1` produced after the trace was `w0`. -/
def emitted (w0 w1 : World) : World := w1.drop w0.length

/-- The status in force after a sequence of calls: the code of the last `WriteHeader`
among them, or `c` when there is none. -/
def lastStatus (c : Int) : List Op → Int
  | [] => c
  | Op.WriteHeader code :: rest => lastStatus code rest
  | _ :: rest => lastStatus c rest

/-- The trace at the moment `ServeHTTP` delegates to the downstream handler. -/
def LogPlugin.worldAtDelegation (p : LogPlugin) (req : http.Request) (w : World) : World :=
  if p.config.LogRequest then p.logRequest req w else w

/-- The delegated call of `ServeHTTP`: the downstream handler run on the wrapper. -/
def LogPlugin.delegated (p : LogPlugin) (rw : Sink) (req : http.Request) (w : World) :
    Res Unit × responseWriter × World :=
  (p.next req).run responseWriter.methods
    { ResponseWriter := rw, statusCode := http.StatusOK } (p.worldAtDelegation req w)

/-- The calls the downstream handler makes on the wrapper `ServeHTTP` hands it. -/
def LogPlugin.handlerCalls (p : LogPlugin) (rw : Sink) (req : http.Request) (w : World) :
    List Op :=
  (p.next req).calls responseWriter.methods
    { ResponseWriter := rw, statusCode := http.StatusOK } (p.worldAtDelegation req w)

/-- Format of the line written by `logResponse`. -/
def responseFormat : String := "[RESPONSE] %s %s - Status: %d - Duration: %v"

/-- Formats of the lines written by `logRequest`. -/
def requestFormats : List String :=
  ["[REQUEST] %s %s %s", "[REQUEST] Host: %s", "[REQUEST] RemoteAddr: %s",
    "[REQUEST] User-Agent: %s", "[REQUEST] Headers:", "  %s: %s"]

/-- The event is a request log entry. -/
def Event.isRequestLog : Event → Bool
  | Event.log e => decide (e.format ∈ requestFormats)
  | Event.sink _ => false

/-- The event is a response log entry. -/
def Event.isResponseLog : Event → Bool
  | Event.log e => decide (e.format = responseFormat)
  | Event.sink _ => false

/-- The event is an operation of the downstream handler on its writer. -/
def Event.isHandlerOp : Event → Bool
  | Event.log _ => false
  | Event.sink _ => true

/-- The response log entries of a trace. -/
def responseEntries (w : World) : List log.Entry :=
  (logEntries w).filter fun e => decide (e.format = responseFormat)

/-- The response log entry for a request, a status and a duration. -/
def responseEntry (req : http.Request) (status : Int) (duration : Int) : log.Entry :=
  ⟨responseFormat, [log.Arg.str req.Method, log.Arg.str req.URL.Path, log.Arg.int status,
    log.Arg.duration duration]⟩

/-- The log line for one value of one header. -/
def headerLine (name value : String) : log.Entry :=
  ⟨"  %s: %s", [log.Arg.str name, log.Arg.str value]⟩

/-- Specification of the header lines: one per (name, value) pair of the header map. -/
def headerLines (h : http.Header) : List log.Entry :=
  h.flatMap fun e => e.2.map (headerLine e.1)

/-- The four entries `logRequest` always writes. -/
def requestHead (req : http.Request) : List log.Entry :=
  [⟨"[REQUEST] %s %s %s",
      [log.Arg.str req.Method, log.Arg.str req.URL.Path, log.Arg.str req.Proto]⟩,
    ⟨"[REQUEST] Host: %s", [log.Arg.str req.Host]⟩,
    ⟨"[REQUEST] RemoteAddr: %s", [log.Arg.str req.RemoteAddr]⟩,
    ⟨"[REQUEST] User-Agent: %s", [log.Arg.str req.UserAgent]⟩]

/-- Specification of what `logRequest` writes. -/
def requestEntries (p : LogPlugin) (req : http.Request) : List log.Entry :=
  requestHead req ++
    if p.config.LogHeaders then ⟨"[REQUEST] Headers:", []⟩ :: headerLines req.Header else []

/-- The code of the first `WriteHeader` among a sequence of calls. -/
def firstStatus : List Op → Option Int
  | [] => none
  | Op.WriteHeader code :: _ => some code
  | _ :: rest => firstStatus rest

/-! ## Concrete inputs -/

/-- A sink that accepts every call. -/
def exampleSink : Sink where
  onHeader _ := Res.ok []
  onWrite _ b := Res.ok (b.length, none)
  onWriteHeader _ _ := Res.ok ()

/-- A request carrying the header `X-Test` with the values `a` and `b`. -/
def exampleRequest : http.Request :=
  { Method := "GET", URL := ⟨"/x"⟩, Proto := "HTTP/1.1", Host := "example.org",
    RemoteAddr := "10.0.0.1:4242", Header := [("X-Test", ["a", "b"])] }

/-- A clock on which the request takes five units. -/
def exampleClock : Clock := { Now := 0, Since := fun _ => 5 }

/-- A handler that sets no status: it reads the headers, writes a body and returns. -/
def quietHandler : http.Handler :=
  fun _ => Prog.Header fun _ => Prog.Write [104, 105] fun _ => Prog.ret

/-- A handler that writes, sets status 404 and returns. -/
def notFoundHandler : http.Handler :=
  fun _ => Prog.Header fun _ => Prog.Write [1] fun _ => Prog.WriteHeader 404 fun _ => Prog.ret

/-- A handler that sets status 404, then status 500, and returns. -/
def twoStatusHandler : http.Handler :=
  fun _ => Prog.WriteHeader 404 fun _ => Prog.WriteHeader 500 fun _ => Prog.ret

/-- A handler that writes and then panics. -/
def failingHandler : http.Handler :=
  fun _ => Prog.Write [1] fun _ => Prog.fail "boom"

/-- A plugin around a handler, named `log`. -/
def examplePlugin (next : http.Handler) (config : Config) : LogPlugin :=
  { next := next, name := "log", config := config }

/-! ## Lemmas on traces and runs -/

theorem sinkOps_append (a b : World) : sinkOps (a ++ b) = sinkOps a ++ sinkOps b := by
  simp [sinkOps]

theorem logEntries_append (a b : World) :
    logEntries (a ++ b) = logEntries a ++ logEntries b := by
  simp [logEntries]

theorem sinkOps_map_sink (ops : List Op) : sinkOps (ops.map Event.sink) = ops := by
  induction ops with
  | nil => rfl
  | cons o t ih => simpa [sinkOps] using ih

theorem logEntries_map_sink (ops : List Op) : logEntries (ops.map Event.sink) = [] := by
  induction ops with
  | nil => rfl
  | cons o t ih => simp [logEntries]

theorem emitted_append (w x : World) : emitted w (w ++ x) = x := by
  simp [emitted]

/-- A run on the wrapper appends exactly the handler's calls to the trace, leaves the
embedded sink in place, and ends with the status of the last `WriteHeader`. -/
theorem run_wrapper (prog : Prog) : ∀ (s : Sink) (c : Int) (w : World),
    (prog.run responseWriter.methods ⟨s, c⟩ w).2.2
        = w ++ (prog.calls responseWriter.methods ⟨s, c⟩ w).map Event.sink
      ∧ (prog.run responseWriter.methods ⟨s, c⟩ w).2.1.statusCode
        = lastStatus c (prog.calls responseWriter.methods ⟨s, c⟩ w) := by
  induction prog with
  | ret => intro s c w; simp [Prog.run, Prog.calls, lastStatus]
  | fail v => intro s c w; simp [Prog.run, Prog.calls, lastStatus]
  | Header k ih =>
    intro s c w
    have h := ih (s.onHeader (sinkOps w)) s c (w ++ [Event.sink Op.Header])
    simp only [Prog.run, Prog.calls, responseWriter.methods, Sink.methods, lastStatus]
    simpa using h
  | Write b k ih =>
    intro s c w
    have h := ih (s.onWrite (sinkOps w) b) s c (w ++ [Event.sink (Op.Write b)])
    simp only [Prog.run, Prog.calls, responseWriter.methods, Sink.methods, lastStatus]
    simpa using h
  | WriteHeader code k ih =>
    intro s c w
    have h := ih (s.onWriteHeader (sinkOps w) code) s code
      (w ++ [Event.sink (Op.WriteHeader code)])
    simp only [Prog.run, Prog.calls, responseWriter.methods, responseWriter.WriteHeader,
      Sink.methods, lastStatus]
    simpa using h

/-- A run directly on the sink appends exactly the handler's calls to the trace. -/
theorem run_sink (prog : Prog) : ∀ (s : Sink) (w : World),
    (prog.run Sink.methods s w).2.2 = w ++ (prog.calls Sink.methods s w).map Event.sink := by
  induction prog with
  | ret => intro s w; simp [Prog.run, Prog.calls]
  | fail v => intro s w; simp [Prog.run, Prog.calls]
  | Header k ih =>
    intro s w
    have h := ih (s.onHeader (sinkOps w)) s (w ++ [Event.sink Op.Header])
    simp only [Prog.run, Prog.calls, Sink.methods]
    simpa using h
  | Write b k ih =>
    intro s w
    have h := ih (s.onWrite (sinkOps w) b) s (w ++ [Event.sink (Op.Write b)])
    simp only [Prog.run, Prog.calls, Sink.methods]
    simpa using h
  | WriteHeader code k ih =>
    intro s w
    have h := ih (s.onWriteHeader (sinkOps w) code) s (w ++ [Event.sink (Op.WriteHeader code)])
    simp only [Prog.run, Prog.calls, Sink.methods]
    simpa using h

/-- Behind the wrapper a handler body ends the same way and makes the same calls as when
run directly on the sink, whenever the sink has the same history in both runs. -/
theorem wrapper_same_calls (prog : Prog) : ∀ (s : Sink) (c : Int) (w w' : World),
    sinkOps w = sinkOps w' →
    (prog.run responseWriter.methods ⟨s, c⟩ w).1 = (prog.run Sink.methods s w').1
      ∧ prog.calls responseWriter.methods ⟨s, c⟩ w = prog.calls Sink.methods s w' := by
  induction prog with
  | ret => intro s c w w' _; simp [Prog.run, Prog.calls]
  | fail v => intro s c w w' _; simp [Prog.run, Prog.calls]
  | Header k ih =>
    intro s c w w' hw
    have h := ih (s.onHeader (sinkOps w)) s c (w ++ [Event.sink Op.Header])
      (w' ++ [Event.sink Op.Header]) (by simp [sinkOps_append, hw])
    simp only [Prog.run, Prog.calls, responseWriter.methods, Sink.methods]
    rw [← hw]
    simpa using h
  | Write b k ih =>
    intro s c w w' hw
    have h := ih (s.onWrite (sinkOps w) b) s c (w ++ [Event.sink (Op.Write b)])
      (w' ++ [Event.sink (Op.Write b)]) (by simp [sinkOps_append, hw])
    simp only [Prog.run, Prog.calls, responseWriter.methods, Sink.methods]
    rw [← hw]
    simpa using h
  | WriteHeader code k ih =>
    intro s c w w' hw
    have h := ih (s.onWriteHeader (sinkOps w) code) s code
      (w ++ [Event.sink (Op.WriteHeader code)])
      (w' ++ [Event.sink (Op.WriteHeader code)]) (by simp [sinkOps_append, hw])
    simp only [Prog.run, Prog.calls, responseWriter.methods, responseWriter.WriteHeader,
      Sink.methods]
    rw [← hw]
    simpa using h

/-! ## Lemmas on the plugin -/

theorem logHeaderValues_eq (name : String) (values : List String) : ∀ w : World,
    logHeaderValues name values w = w ++ (values.map (headerLine name)).map Event.log := by
  induction values with
  | nil => intro w; simp [logHeaderValues]
  | cons v t ih => intro w; simp [logHeaderValues, ih, log.Printf, headerLine]

theorem logHeaderEntries_eq (h : http.Header) : ∀ w : World,
    logHeaderEntries h w = w ++ (headerLines h).map Event.log := by
  induction h with
  | nil => intro w; simp [logHeaderEntries, headerLines]
  | cons e t ih =>
    intro w
    obtain ⟨name, values⟩ := e
    rw [logHeaderEntries, ih, logHeaderValues_eq]
    simp [headerLines]

theorem logRequest_eq (p : LogPlugin) (req : http.Request) (w : World) :
    p.logRequest req w = w ++ (requestEntries p req).map Event.log := by
  unfold LogPlugin.logRequest requestEntries requestHead
  cases hH : p.config.LogHeaders <;> simp [log.Printf, logHeaderEntries_eq]

theorem worldAtDelegation_eq (p : LogPlugin) (req : http.Request) (w : World) :
    p.worldAtDelegation req w
      = w ++ (if p.config.LogRequest then requestEntries p req else []).map Event.log := by
  unfold LogPlugin.worldAtDelegation
  cases hR : p.config.LogRequest <;> simp [logRequest_eq]

theorem delegated_world (p : LogPlugin) (rw : Sink) (req : http.Request) (w : World) :
    (p.delegated rw req w).2.2
      = p.worldAtDelegation req w ++ (p.handlerCalls rw req w).map Event.sink :=
  (run_wrapper (p.next req) rw http.StatusOK (p.worldAtDelegation req w)).1

theorem delegated_status (p : LogPlugin) (rw : Sink) (req : http.Request) (w : World) :
    (p.delegated rw req w).2.1.statusCode = lastStatus http.StatusOK (p.handlerCalls rw req w) :=
  (run_wrapper (p.next req) rw http.StatusOK (p.worldAtDelegation req w)).2

/-- What `ServeHTTP` does when the downstream handler returns normally. -/
theorem ServeHTTP_of_ok (p : LogPlugin) (clock : Clock) (rw : Sink) (req : http.Request)
    (w : World) (hret : (p.delegated rw req w).1 = Res.ok ()) :
    p.ServeHTTP clock rw req w
      = (Res.ok (), w ++ (if p.config.LogRequest then requestEntries p req else []).map Event.log
          ++ (p.handlerCalls rw req w).map Event.sink
          ++ (if p.config.LogResponse then
                [responseEntry req (lastStatus http.StatusOK (p.handlerCalls rw req w))
                  (clock.Since clock.Now)]
              else []).map Event.log) := by
  have hw := delegated_world p rw req w
  have hs := delegated_status p rw req w
  rw [worldAtDelegation_eq] at hw
  unfold LogPlugin.delegated LogPlugin.worldAtDelegation at hret hw hs
  unfold LogPlugin.ServeHTTP
  simp only [hret, hw, hs]
  cases hL : p.config.LogResponse <;>
    simp [LogPlugin.logResponse, log.Printf, responseEntry, responseFormat]

/-- What `ServeHTTP` does when the downstream handler panics. -/
theorem ServeHTTP_of_panicked (p : LogPlugin) (clock : Clock) (rw : Sink) (req : http.Request)
    (w : World) (v : PanicValue) (hret : (p.delegated rw req w).1 = Res.panicked v) :
    p.ServeHTTP clock rw req w
      = (Res.panicked v,
          w ++ (if p.config.LogRequest then requestEntries p req else []).map Event.log
          ++ (p.handlerCalls rw req w).map Event.sink) := by
  have hw := delegated_world p rw req w
  rw [worldAtDelegation_eq] at hw
  unfold LogPlugin.delegated LogPlugin.worldAtDelegation at hret hw
  unfold LogPlugin.ServeHTTP
  simp only [hret, hw]

theorem logEntries_map_log (es : List log.Entry) : logEntries (es.map Event.log) = es := by
  induction es with
  | nil => rfl
  | cons e t ih => simpa [logEntries] using ih

theorem sinkOps_map_log (es : List log.Entry) : sinkOps (es.map Event.log) = [] := by
  induction es with
  | nil => rfl
  | cons e t ih => simp [sinkOps]

theorem responseFormat_not_request : responseFormat ∉ requestFormats := by decide

theorem requestEntries_format (p : LogPlugin) (req : http.Request) :
    ∀ e ∈ requestEntries p req, e.format ∈ requestFormats := by
  intro e he
  unfold requestEntries requestHead at he
  cases hH : p.config.LogHeaders
  · simp [hH] at he
    rcases he with h | h | h | h <;> subst h <;> simp [requestFormats]
  · simp [hH, headerLines, List.mem_flatMap] at he
    rcases he with h | h | h | h | h | ⟨n, vs, _, v, _, h⟩ <;> subst h <;>
      simp [requestFormats, headerLine]

theorem lastStatus_of_no_WriteHeader (c : Int) (ops : List Op)
    (h : ∀ code, Op.WriteHeader code ∉ ops) : lastStatus c ops = c := by
  induction ops with
  | nil => rfl
  | cons o t ih =>
    cases o with
    | Header => exact ih fun code hc => h code (List.mem_cons_of_mem _ hc)
    | Write b => exact ih fun code hc => h code (List.mem_cons_of_mem _ hc)
    | WriteHeader code => exact absurd (List.mem_cons_self _ _) (h code)

theorem lastStatus_append_WriteHeader (c code : Int) (pre post : List Op)
    (h : ∀ k, Op.WriteHeader k ∉ post) :
    lastStatus c (pre ++ Op.WriteHeader code :: post) = code := by
  induction pre generalizing c with
  | nil => simpa [lastStatus] using lastStatus_of_no_WriteHeader code post h
  | cons o t ih => cases o <;> simpa [lastStatus] using ih _

/-- The part of the trace produced by `ServeHTTP`, in both outcomes of the handler. -/
theorem emitted_ServeHTTP (p : LogPlugin) (clock : Clock) (rw : Sink) (req : http.Request)
    (w : World) :
    emitted w (p.ServeHTTP clock rw req w).2
      = (if p.config.LogRequest then requestEntries p req else []).map Event.log
        ++ (p.handlerCalls rw req w).map Event.sink
        ++ (if (p.delegated rw req w).1 = Res.ok () ∧ p.config.LogResponse = true then
              [responseEntry req (lastStatus http.StatusOK (p.handlerCalls rw req w))
                (clock.Since clock.Now)]
            else []).map Event.log := by
  cases hret : (p.delegated rw req w).1 with
  | ok u =>
    rw [ServeHTTP_of_ok p clock rw req w hret]
    simp only [List.append_assoc, emitted_append]
    cases hL : p.config.LogResponse <;> simp
  | panicked v =>
    rw [ServeHTTP_of_panicked p clock rw req w v hret]
    simp only [List.append_assoc, emitted_append]
    simp

theorem outcome_ServeHTTP (p : LogPlugin) (clock : Clock) (rw : Sink) (req : http.Request)
    (w : World) : (p.ServeHTTP clock rw req w).1 = (p.delegated rw req w).1 := by
  cases hret : (p.delegated rw req w).1 with
  | ok u => rw [ServeHTTP_of_ok p clock rw req w hret]
  | panicked v => rw [ServeHTTP_of_panicked p clock rw req w v hret]

theorem sinkOps_worldAtDelegation (p : LogPlugin) (req : http.Request) (w : World) :
    sinkOps (p.worldAtDelegation req w) = sinkOps w := by
  rw [worldAtDelegation_eq, sinkOps_append, sinkOps_map_log, List.append_nil]

/-- The response log entries `ServeHTTP` emits when the handler returns normally. -/
theorem responseEntries_ServeHTTP (p : LogPlugin) (clock : Clock) (rw : Sink)
    (req : http.Request) (w : World) (hret : (p.delegated rw req w).1 = Res.ok ())
    (hresp : p.config.LogResponse = true) :
    responseEntries (emitted w (p.ServeHTTP clock rw req w).2)
      = [responseEntry req (lastStatus http.StatusOK (p.handlerCalls rw req w))
          (clock.Since clock.Now)] := by
  have hnone : ∀ e ∈ (if p.config.LogRequest then requestEntries p req else []),
      ¬ e.format = responseFormat := by
    intro e he hf
    cases hR : p.config.LogRequest
    · simp [hR] at he
    · rw [hR] at he
      exact responseFormat_not_request (hf ▸ requestEntries_format p req e he)
  rw [emitted_ServeHTTP]
  simp only [responseEntries, logEntries_append, logEntries_map_log, logEntries_map_sink,
    hret, hresp, and_self, if_true, List.append_nil, List.filter_append]
  rw [List.filter_eq_nil_iff.mpr (by simpa using hnone)]
  simp [responseEntry]

/-- Events of a first block that satisfy `P` come before events of a second block that
satisfy `Q`, when `Q` fails on the first block and `P` on the second. -/
theorem index_lt_of_append (A B : World) (P Q : Event → Bool)
    (hA : ∀ e ∈ A, Q e = false) (hB : ∀ e ∈ B, P e = false)
    (i j : Nat) (ei ej : Event) (hi : (A ++ B)[i]? = some ei) (hj : (A ++ B)[j]? = some ej)
    (hP : P ei = true) (hQ : Q ej = true) : i < j := by
  have hiA : i < A.length := by
    by_contra hcon
    rw [List.getElem?_append_right (Nat.le_of_not_lt hcon)] at hi
    have := hB ei (List.getElem?_mem hi)
    rw [hP] at this
    exact Bool.noConfusion this
  have hjA : A.length ≤ j := by
    by_contra hcon
    rw [List.getElem?_append_left (Nat.lt_of_not_le hcon)] at hj
    have := hA ej (List.getElem?_mem hj)
    rw [hQ] at this
    exact Bool.noConfusion this
  exact Nat.lt_of_lt_of_le hiA hjA

theorem headerLine_eq_iff (n v n' v' : String) :
    headerLine n v = headerLine n' v' ↔ n = n' ∧ v = v' := by
  simp [headerLine]

theorem count_headerLine_map (name n value : String) (values : List String) :
    (values.map (headerLine n)).count (headerLine name value)
      = if n = name then values.count value else 0 := by
  induction values with
  | nil => simp
  | cons v t ih =>
    rw [List.map_cons, List.count_cons, ih, List.count_cons]
    by_cases hn : n = name
    · by_cases hv : v = value
      · simp [hn, hv]
      · have hne : ¬ headerLine n v = headerLine name value := fun h =>
          hv ((headerLine_eq_iff _ _ _ _).1 h).2
        simp [hn, hv, headerLine_eq_iff]
    · have hne : ¬ headerLine n v = headerLine name value := fun h =>
        hn ((headerLine_eq_iff _ _ _ _).1 h).1
      simp [hn, headerLine_eq_iff]

theorem headerLines_length (h : http.Header) :
    (headerLines h).length = (h.map fun e => e.2.length).sum := by
  induction h with
  | nil => rfl
  | cons e t ih =>
    have ht : (headerLines (e :: t)) = e.2.map (headerLine e.1) ++ headerLines t := by
      simp [headerLines]
    rw [ht, List.length_append, ih]
    simp

theorem headerLines_count (h : http.Header) (name value : String) :
    (headerLines h).count (headerLine name value)
      = ((h.filter fun e => decide (e.1 = name)).map fun e => e.2.count value).sum := by
  induction h with
  | nil => rfl
  | cons e t ih =>
    have ht : (headerLines (e :: t)) = e.2.map (headerLine e.1) ++ headerLines t := by
      simp [headerLines]
    rw [ht, List.count_append, ih, count_headerLine_map]
    by_cases hn : e.1 = name <;> simp [List.filter_cons, hn]

theorem headerLines_mem (h : http.Header) (l : log.Entry) (hl : l ∈ headerLines h) :
    ∃ name values value, (name, values) ∈ h ∧ value ∈ values ∧ l = headerLine name value := by
  simp only [headerLines, List.mem_flatMap, List.mem_map] at hl
  obtain ⟨e, he, v, hv, rfl⟩ := hl
  exact ⟨e.1, e.2, v, he, hv, rfl⟩

/-! ## The claims -/

/-- C1. Transparency of `LogPlugin.ServeHTTP`: for every configuration, request, sink and
downstream handler, the sequence of calls the real sink receives while the handler runs
behind `ServeHTTP` is exactly the sequence it receives when the handler is called directly
on that sink (and it is the sequence of calls the handler made on the wrapper); the call
ends the same way in both cases. -/
theorem ServeHTTP_transparent (p : LogPlugin) (clock : Clock) (rw : Sink) (req : http.Request)
    (w : World) :
    sinkOps (emitted w (p.ServeHTTP clock rw req w).2)
        = sinkOps (emitted w ((p.next req).run Sink.methods rw w).2.2)
      ∧ sinkOps (emitted w (p.ServeHTTP clock rw req w).2) = p.handlerCalls rw req w
      ∧ (p.ServeHTTP clock rw req w).1 = ((p.next req).run Sink.methods rw w).1 := by
  have hsame := wrapper_same_calls (p.next req) rw http.StatusOK (p.worldAtDelegation req w) w
    (sinkOps_worldAtDelegation p req w)
  have hbehind : sinkOps (emitted w (p.ServeHTTP clock rw req w).2) = p.handlerCalls rw req w := by
    rw [emitted_ServeHTTP]
    simp [sinkOps_append, sinkOps_map_log, sinkOps_map_sink]
  refine ⟨?_, hbehind, ?_⟩
  · rw [hbehind, run_sink, emitted_append, sinkOps_map_sink]
    exact hsame.2
  · rw [outcome_ServeHTTP]
    exact hsame.1

/-- C2. `responseWriter.WriteHeader(code)`, for every wrapper state and every code:
afterwards the captured `statusCode` is `code` whatever it was before; the trace has grown
by exactly one event, the call `WriteHeader(code)` received by the underlying sink; the
call ends as the sink's own `WriteHeader` ends; and the capture does not depend on that
end: it is in place even when the forwarded call panics. -/
theorem WriteHeader_captures_then_forwards (rw : responseWriter) (code : Int) (w : World) :
    (rw.WriteHeader code w).2.1.statusCode = code
      ∧ emitted w (rw.WriteHeader code w).2.2 = [Event.sink (Op.WriteHeader code)]
      ∧ sinkOps (rw.WriteHeader code w).2.2 = sinkOps w ++ [Op.WriteHeader code]
      ∧ (rw.WriteHeader code w).1 = rw.ResponseWriter.onWriteHeader (sinkOps w) code
      ∧ (∀ v, (rw.WriteHeader code w).1 = Res.panicked v →
          (rw.WriteHeader code w).2.1.statusCode = code)
      ∧ (rw.WriteHeader code w).2.1.ResponseWriter = rw.ResponseWriter := by
  refine ⟨rfl, ?_, ?_, rfl, fun _ _ => rfl, rfl⟩
  · simp [responseWriter.WriteHeader, Sink.methods, emitted_append]
  · simp [responseWriter.WriteHeader, Sink.methods, sinkOps_append, sinkOps]

/-- C7. Silence when disabled: with `LogRequest` and `LogResponse` both false (whatever
`LogHeaders` is), for every request, sink and downstream handler, `ServeHTTP` emits no log
entry. -/
theorem ServeHTTP_silent (p : LogPlugin) (clock : Clock) (rw : Sink) (req : http.Request)
    (w : World) (hreq : p.config.LogRequest = false) (hresp : p.config.LogResponse = false) :
    logEntries (emitted w (p.ServeHTTP clock rw req w).2) = [] := by
  rw [emitted_ServeHTTP]
  simp [hreq, hresp, logEntries_append, logEntries_map_sink, logEntries]

/-- C7, at a concrete input: a panicking handler behind a plugin with logging disabled and
header logging on. -/
theorem ServeHTTP_silent_witness :
    (examplePlugin failingHandler ⟨false, false, true⟩).config.LogRequest = false
      ∧ (examplePlugin failingHandler ⟨false, false, true⟩).config.LogResponse = false
      ∧ logEntries (emitted []
          ((examplePlugin failingHandler ⟨false, false, true⟩).ServeHTTP exampleClock
            exampleSink exampleRequest []).2) = [] :=
  ⟨rfl, rfl, ServeHTTP_silent (examplePlugin failingHandler ⟨false, false, true⟩) exampleClock
    exampleSink exampleRequest [] rfl rfl⟩

/-- C9. Failure propagation: for every configuration and request, when the downstream
handler panics with a value, `ServeHTTP` panics with that same value. -/
theorem ServeHTTP_propagates_panic (p : LogPlugin) (clock : Clock) (rw : Sink)
    (req : http.Request) (w : World) (v : PanicValue)
    (hfail : (p.delegated rw req w).1 = Res.panicked v) :
    (p.ServeHTTP clock rw req w).1 = Res.panicked v := by
  rw [outcome_ServeHTTP, hfail]

/-- C9, at a concrete input: the handler that panics with `boom`. -/
theorem ServeHTTP_propagates_panic_witness :
    ((examplePlugin failingHandler CreateConfig).delegated exampleSink exampleRequest []).1
        = Res.panicked "boom"
      ∧ ((examplePlugin failingHandler CreateConfig).ServeHTTP exampleClock exampleSink
          exampleRequest []).1 = Res.panicked "boom" :=
  ⟨rfl, ServeHTTP_propagates_panic (examplePlugin failingHandler CreateConfig) exampleClock
    exampleSink exampleRequest [] "boom" rfl⟩

/-- C10. Default configuration and construction: `CreateConfig` has `LogRequest` and
`LogResponse` true and `LogHeaders` false; `New`, for every handler, configuration and name
(the empty name included), returns no error and a plugin holding exactly the given handler,
configuration and name. -/
theorem CreateConfig_New (ctx : Unit) (next : http.Handler) (config : Config) (name : String) :
    CreateConfig.LogRequest = true ∧ CreateConfig.LogResponse = true
      ∧ CreateConfig.LogHeaders = false
      ∧ (New ctx next config name).2 = none
      ∧ (New ctx next config name).1.next = next
      ∧ (New ctx next config name).1.config = config
      ∧ (New ctx next config name).1.name = name
      ∧ (New ctx next config "").2 = none
      ∧ (New ctx next config "").1.name = "" :=
  ⟨rfl, rfl, rfl, rfl, rfl, rfl, rfl, rfl, rfl⟩

/-- C3. Default status: for every request and every downstream handler that returns
normally without calling `WriteHeader` on the writer it is given (it may call `Write` and
`Header` any number of times), with `LogResponse` enabled `ServeHTTP` emits one response log
entry and it shows status 200. -/
theorem ServeHTTP_default_status (p : LogPlugin) (clock : Clock) (rw : Sink)
    (req : http.Request) (w : World) (hresp : p.config.LogResponse = true)
    (hret : (p.delegated rw req w).1 = Res.ok ())
    (hnever : ∀ code, Op.WriteHeader code ∉ p.handlerCalls rw req w) :
    responseEntries (emitted w (p.ServeHTTP clock rw req w).2)
      = [⟨"[RESPONSE] %s %s - Status: %d - Duration: %v",
          [log.Arg.str req.Method, log.Arg.str req.URL.Path, log.Arg.int 200,
            log.Arg.duration (clock.Since clock.Now)]⟩] := by
  rw [responseEntries_ServeHTTP p clock rw req w hret hresp,
    lastStatus_of_no_WriteHeader _ _ hnever]
  rfl

/-- C3, at a concrete input: a handler that reads the headers and writes a body. -/
theorem ServeHTTP_default_status_witness :
    (examplePlugin quietHandler CreateConfig).config.LogResponse = true
      ∧ ((examplePlugin quietHandler CreateConfig).delegated exampleSink exampleRequest []).1
          = Res.ok ()
      ∧ (∀ code, Op.WriteHeader code ∉
          (examplePlugin quietHandler CreateConfig).handlerCalls exampleSink exampleRequest [])
      ∧ responseEntries (emitted [] ((examplePlugin quietHandler CreateConfig).ServeHTTP
          exampleClock exampleSink exampleRequest []).2)
        = [⟨"[RESPONSE] %s %s - Status: %d - Duration: %v",
            [log.Arg.str "GET", log.Arg.str "/x", log.Arg.int 200, log.Arg.duration 5]⟩] :=
  have hnever : ∀ code, Op.WriteHeader code ∉
      (examplePlugin quietHandler CreateConfig).handlerCalls exampleSink exampleRequest [] := by
    intro code h
    simp [LogPlugin.handlerCalls, examplePlugin, quietHandler, Prog.calls] at h
  ⟨rfl, rfl, hnever, ServeHTTP_default_status (examplePlugin quietHandler CreateConfig)
    exampleClock exampleSink exampleRequest [] rfl rfl hnever⟩

/-- C4. Explicit status is logged exactly once: for every status code `c` and every
downstream handler that calls `WriteHeader(c)` and then returns, whatever calls `pre` it
made before that call (any number of `Write` and `Header` calls in particular), with
`LogResponse` enabled `ServeHTTP` emits exactly one response log entry and it shows
status `c`. -/
theorem ServeHTTP_explicit_status_once (p : LogPlugin) (clock : Clock) (rw : Sink)
    (req : http.Request) (w : World) (c : Int) (pre : List Op)
    (hresp : p.config.LogResponse = true)
    (hret : (p.delegated rw req w).1 = Res.ok ())
    (hcalls : p.handlerCalls rw req w = pre ++ [Op.WriteHeader c]) :
    responseEntries (emitted w (p.ServeHTTP clock rw req w).2)
      = [⟨"[RESPONSE] %s %s - Status: %d - Duration: %v",
          [log.Arg.str req.Method, log.Arg.str req.URL.Path, log.Arg.int c,
            log.Arg.duration (clock.Since clock.Now)]⟩] := by
  rw [responseEntries_ServeHTTP p clock rw req w hret hresp, hcalls,
    lastStatus_append_WriteHeader _ c pre [] (fun _ h => nomatch h)]
  rfl

/-- C4, at a concrete input: a handler that reads the headers, writes, then sets 404. -/
theorem ServeHTTP_explicit_status_once_witness :
    (examplePlugin notFoundHandler CreateConfig).config.LogResponse = true
      ∧ ((examplePlugin notFoundHandler CreateConfig).delegated exampleSink exampleRequest []).1
          = Res.ok ()
      ∧ (examplePlugin notFoundHandler CreateConfig).handlerCalls exampleSink exampleRequest []
          = [Op.Header, Op.Write [1]] ++ [Op.WriteHeader 404]
      ∧ responseEntries (emitted [] ((examplePlugin notFoundHandler CreateConfig).ServeHTTP
          exampleClock exampleSink exampleRequest []).2)
        = [⟨"[RESPONSE] %s %s - Status: %d - Duration: %v",
            [log.Arg.str "GET", log.Arg.str "/x", log.Arg.int 404, log.Arg.duration 5]⟩] :=
  ⟨rfl, rfl, rfl, ServeHTTP_explicit_status_once
    (examplePlugin notFoundHandler CreateConfig) exampleClock exampleSink exampleRequest [] 404
    [Op.Header, Op.Write [1]] rfl rfl rfl⟩

/-- C5, as stated, fails: the handler that sets status 404 and then status 500 returns
normally, the first status it set is 404, yet the status captured by the wrapper is 500 and
the response log entry shows 500. -/
theorem first_status_does_not_win :
    ((examplePlugin twoStatusHandler CreateConfig).delegated exampleSink exampleRequest []).1
        = Res.ok ()
      ∧ firstStatus ((examplePlugin twoStatusHandler CreateConfig).handlerCalls exampleSink
          exampleRequest []) = some 404
      ∧ ((examplePlugin twoStatusHandler CreateConfig).delegated exampleSink
          exampleRequest []).2.1.statusCode = 500
      ∧ responseEntries (emitted [] ((examplePlugin twoStatusHandler CreateConfig).ServeHTTP
          exampleClock exampleSink exampleRequest []).2)
        = [⟨"[RESPONSE] %s %s - Status: %d - Duration: %v",
            [log.Arg.str "GET", log.Arg.str "/x", log.Arg.int 500, log.Arg.duration 5]⟩] :=
  ⟨rfl, rfl, rfl, by decide⟩

/-- C5, amended. Last status wins: for every downstream handler that returns normally after
one or more `WriteHeader` calls on the wrapper, the status captured by the wrapper is the
code of the last of those calls, and with `LogResponse` enabled the one response log entry
shows that code. -/
theorem ServeHTTP_last_status_wins (p : LogPlugin) (clock : Clock) (rw : Sink)
    (req : http.Request) (w : World) (c : Int) (pre post : List Op)
    (hret : (p.delegated rw req w).1 = Res.ok ())
    (hcalls : p.handlerCalls rw req w = pre ++ Op.WriteHeader c :: post)
    (hpost : ∀ code, Op.WriteHeader code ∉ post) :
    (p.delegated rw req w).2.1.statusCode = c
      ∧ (p.config.LogResponse = true →
          responseEntries (emitted w (p.ServeHTTP clock rw req w).2)
            = [⟨"[RESPONSE] %s %s - Status: %d - Duration: %v",
                [log.Arg.str req.Method, log.Arg.str req.URL.Path, log.Arg.int c,
                  log.Arg.duration (clock.Since clock.Now)]⟩]) := by
  have hlast := lastStatus_append_WriteHeader http.StatusOK c pre post hpost
  refine ⟨?_, fun hresp => ?_⟩
  · rw [delegated_status, hcalls, hlast]
  · rw [responseEntries_ServeHTTP p clock rw req w hret hresp, hcalls, hlast]
    rfl

/-- C5 amended, at a concrete input: status 404 then status 500; the last one, 500, is
captured and logged. -/
theorem ServeHTTP_last_status_wins_witness :
    ((examplePlugin twoStatusHandler CreateConfig).delegated exampleSink exampleRequest []).1
        = Res.ok ()
      ∧ (examplePlugin twoStatusHandler CreateConfig).handlerCalls exampleSink exampleRequest []
          = [Op.WriteHeader 404] ++ Op.WriteHeader 500 :: []
      ∧ (∀ code, Op.WriteHeader code ∉ ([] : List Op))
      ∧ ((examplePlugin twoStatusHandler CreateConfig).delegated exampleSink
          exampleRequest []).2.1.statusCode = 500
      ∧ ((examplePlugin twoStatusHandler CreateConfig).config.LogResponse = true →
          responseEntries (emitted [] ((examplePlugin twoStatusHandler CreateConfig).ServeHTTP
            exampleClock exampleSink exampleRequest []).2)
          = [⟨"[RESPONSE] %s %s - Status: %d - Duration: %v",
              [log.Arg.str "GET", log.Arg.str "/x", log.Arg.int 500, log.Arg.duration 5]⟩]) :=
  ⟨rfl, rfl, by simp, ServeHTTP_last_status_wins (examplePlugin twoStatusHandler CreateConfig)
    exampleClock exampleSink exampleRequest [] 500 [Op.WriteHeader 404] [] rfl rfl (by simp)⟩

/-- C6. Per-request ordering in `ServeHTTP`: in the trace of one call, for every
configuration, sink and handler, every request log entry (header lines included) precedes
every operation of the downstream handler, every operation of the downstream handler
precedes every response log entry, and every request log entry precedes every response log
entry. -/
theorem ServeHTTP_ordering (p : LogPlugin) (clock : Clock) (rw : Sink) (req : http.Request)
    (w : World) (i j : Nat) (ei ej : Event)
    (hi : (emitted w (p.ServeHTTP clock rw req w).2)[i]? = some ei)
    (hj : (emitted w (p.ServeHTTP clock rw req w).2)[j]? = some ej) :
    (ei.isRequestLog = true → ej.isHandlerOp = true → i < j)
      ∧ (ei.isHandlerOp = true → ej.isResponseLog = true → i < j)
      ∧ (ei.isRequestLog = true → ej.isResponseLog = true → i < j) := by
  rw [emitted_ServeHTTP] at hi hj
  have hA : ∀ e ∈ (if p.config.LogRequest then requestEntries p req else []).map Event.log,
      e.isHandlerOp = false ∧ e.isResponseLog = false := by
    intro e he
    obtain ⟨x, hx, rfl⟩ := List.mem_map.1 he
    refine ⟨rfl, ?_⟩
    cases hR : p.config.LogRequest
    · simp [hR] at hx
    · rw [hR] at hx
      have hf := requestEntries_format p req x hx
      simp only [Event.isResponseLog, decide_eq_false_iff_not]
      exact fun h => responseFormat_not_request (h ▸ hf)
  have hB : ∀ e ∈ (p.handlerCalls rw req w).map Event.sink,
      e.isRequestLog = false ∧ e.isResponseLog = false := by
    intro e he
    obtain ⟨x, _, rfl⟩ := List.mem_map.1 he
    exact ⟨rfl, rfl⟩
  have hC : ∀ e ∈ (if (p.delegated rw req w).1 = Res.ok () ∧ p.config.LogResponse = true then
        [responseEntry req (lastStatus http.StatusOK (p.handlerCalls rw req w))
          (clock.Since clock.Now)]
      else []).map Event.log, e.isRequestLog = false ∧ e.isHandlerOp = false := by
    intro e he
    obtain ⟨x, hx, rfl⟩ := List.mem_map.1 he
    refine ⟨?_, rfl⟩
    split at hx
    · rw [List.mem_singleton] at hx
      subst hx
      simp only [Event.isRequestLog, decide_eq_false_iff_not, responseEntry]
      exact responseFormat_not_request
    · exact absurd hx (List.not_mem_nil _)
  refine ⟨fun hP hQ => ?_, fun hP hQ => ?_, fun hP hQ => ?_⟩
  · rw [List.append_assoc] at hi hj
    refine index_lt_of_append _ _ Event.isRequestLog Event.isHandlerOp (fun e he => (hA e he).1)
      (fun e he => ?_) i j ei ej hi hj hP hQ
    rcases List.mem_append.1 he with h | h
    · exact (hB e h).1
    · exact (hC e h).1
  · refine index_lt_of_append _ _ Event.isHandlerOp Event.isResponseLog (fun e he => ?_)
      (fun e he => (hC e he).2) i j ei ej hi hj hP hQ
    rcases List.mem_append.1 he with h | h
    · exact (hA e h).2
    · exact (hB e h).2
  · refine index_lt_of_append _ _ Event.isRequestLog Event.isResponseLog (fun e he => ?_)
      (fun e he => (hC e he).1) i j ei ej hi hj hP hQ
    rcases List.mem_append.1 he with h | h
    · exact (hA e h).2
    · exact (hB e h).2

/-- C6, at a concrete input: with header logging on, the last header line (index 6)
precedes the first call of the handler (index 7), whose last call (index 9) precedes the
response entry (index 10). -/
theorem ServeHTTP_ordering_witness :
    (emitted [] ((examplePlugin notFoundHandler ⟨true, true, true⟩).ServeHTTP exampleClock
        exampleSink exampleRequest []).2)[6]? = some (Event.log (headerLine "X-Test" "b"))
      ∧ (emitted [] ((examplePlugin notFoundHandler ⟨true, true, true⟩).ServeHTTP exampleClock
        exampleSink exampleRequest []).2)[7]? = some (Event.sink Op.Header)
      ∧ ((Event.log (headerLine "X-Test" "b")).isRequestLog = true →
          (Event.sink Op.Header).isHandlerOp = true → 6 < 7)
      ∧ ((Event.log (headerLine "X-Test" "b")).isHandlerOp = true →
          (Event.sink Op.Header).isResponseLog = true → 6 < 7)
      ∧ ((Event.log (headerLine "X-Test" "b")).isRequestLog = true →
          (Event.sink Op.Header).isResponseLog = true → 6 < 7) :=
  ⟨by decide, by decide, ServeHTTP_ordering (examplePlugin notFoundHandler ⟨true, true, true⟩)
    exampleClock exampleSink exampleRequest [] 6 7 (Event.log (headerLine "X-Test" "b"))
    (Event.sink Op.Header) (by decide) (by decide)⟩

/-- C8. Header logging: with `LogHeaders` enabled, for every request, `logRequest` emits its
four fixed entries, then the `Headers:` entry, then only header lines: each line carries a
name and one of the values of the request's headers, each (name, value) pair has exactly as
many lines as it has occurrences in the headers, so a header with k values yields k lines
and the number of lines is the total number of values. -/
theorem logRequest_header_lines (p : LogPlugin) (req : http.Request) (w : World)
    (hH : p.config.LogHeaders = true) :
    (logEntries (emitted w (p.logRequest req w))).take 5
        = requestHead req ++ [⟨"[REQUEST] Headers:", []⟩]
      ∧ ((logEntries (emitted w (p.logRequest req w))).drop 5).length
          = (req.Header.map fun e => e.2.length).sum
      ∧ (∀ l ∈ (logEntries (emitted w (p.logRequest req w))).drop 5,
          ∃ name values value, (name, values) ∈ req.Header ∧ value ∈ values
            ∧ l = ⟨"  %s: %s", [log.Arg.str name, log.Arg.str value]⟩)
      ∧ (∀ name value,
          ((logEntries (emitted w (p.logRequest req w))).drop 5).count
              ⟨"  %s: %s", [log.Arg.str name, log.Arg.str value]⟩
            = ((req.Header.filter fun e => decide (e.1 = name)).map
                fun e => e.2.count value).sum) := by
  have hlog : logEntries (emitted w (p.logRequest req w))
      = requestHead req ++ [⟨"[REQUEST] Headers:", []⟩] ++ headerLines req.Header := by
    rw [logRequest_eq, emitted_append, logEntries_map_log]
    simp [requestEntries, hH]
  have hlen : (requestHead req ++ [(⟨"[REQUEST] Headers:", []⟩ : log.Entry)]).length = 5 := rfl
  have htake : (logEntries (emitted w (p.logRequest req w))).take 5
      = requestHead req ++ [⟨"[REQUEST] Headers:", []⟩] := by
    rw [hlog, ← hlen, List.take_left]
  have hdrop : (logEntries (emitted w (p.logRequest req w))).drop 5
      = headerLines req.Header := by
    rw [hlog, ← hlen, List.drop_left]
  rw [hdrop]
  exact ⟨htake, headerLines_length _, fun l hl => headerLines_mem _ l hl,
    fun name value => headerLines_count _ name value⟩

/-- C8, at a concrete input: the header `X-Test` with the values `a` and `b` yields one
line for `a` and one line for `b`. -/
theorem logRequest_header_lines_witness :
    (examplePlugin quietHandler ⟨true, true, true⟩).config.LogHeaders = true
      ∧ (logEntries (emitted [] ((examplePlugin quietHandler ⟨true, true, true⟩).logRequest
            exampleRequest []))).drop 5
          = [⟨"  %s: %s", [log.Arg.str "X-Test", log.Arg.str "a"]⟩,
              ⟨"  %s: %s", [log.Arg.str "X-Test", log.Arg.str "b"]⟩]
      ∧ ((logEntries (emitted [] ((examplePlugin quietHandler ⟨true, true, true⟩).logRequest
            exampleRequest []))).drop 5).count
            ⟨"  %s: %s", [log.Arg.str "X-Test", log.Arg.str "a"]⟩
          = ((exampleRequest.Header.filter fun e => decide (e.1 = "X-Test")).map
              fun e => e.2.count "a").sum :=
  ⟨rfl, by decide, (logRequest_header_lines (examplePlugin quietHandler ⟨true, true, true⟩)
    exampleRequest [] rfl).2.2.2 "X-Test" "a"⟩

end logplugin
